import Mathlib

/-!
# Verification of the salary-document field extractor and calculation engine

Shallow embedding of `src/streamlit_app.py` (repository `Soujatya1/field-ext`).

The core of the program consists of:
* `extract_salary_fields` / `extract_itr_fields` — regex-driven field
  extraction from OCR text into a Python dict (here: an association list
  `FieldMapping` preserving insertion order);
* `perform_calculations` — combining the two field mappings into a
  mapping of derived metrics;
* the presentation formatting in the "Salary Analysis" tab.

Python floats are modelled as rationals (`ℚ`); all concrete values used in
the claims are exactly representable, and no float-rounding behaviour is at
stake in any claim.  A Python dict value is either a float (`Value.num`) or
a string (`Value.str`): these are the only value shapes the extractors
produce.  Python exceptions (`TypeError`, `ZeroDivisionError`) are modelled
with `Except String`.
-/

/-- A value stored in one of the program's dicts: either a Python float
(modelled as `ℚ`) or a Python string.  The extractor stores floats for
successfully-parsed currency fields and strings otherwise. -/
inductive Value where
  | num : ℚ → Value
  | str : String → Value
deriving DecidableEq, Repr

/-- `v.isNum` is true when `v` is a decimal number (a Python float). -/
def Value.isNum : Value → Bool
  | .num _ => true
  | .str _ => false

/-!
The library's rational arithmetic (`Rat.add`, `Rat.mul`, …) is marked
`@[irreducible]`, which blocks `decide`-style evaluation of the embedded
program on concrete inputs.  We therefore compute with kernel-reducible
reimplementations `qadd`/`qsub`/`qmul`/`qdiv` built from `mkRat`/`divInt`,
each proved equal to the corresponding standard operation, so that
theorem statements can still speak in ordinary `+ - * /`.
-/

/-- `a + b` on `ℚ` in kernel-reducible form (see `qadd_eq`). -/
def qadd (a b : ℚ) : ℚ := mkRat (a.num * b.den + b.num * a.den) (a.den * b.den)

/-- `qadd` is addition. -/
theorem qadd_eq (a b : ℚ) : qadd a b = a + b := (Rat.add_def' a b).symm

/-- `a - b` on `ℚ` in kernel-reducible form (see `qsub_eq`). -/
def qsub (a b : ℚ) : ℚ := mkRat (a.num * b.den - b.num * a.den) (a.den * b.den)

/-- `qsub` is subtraction. -/
theorem qsub_eq (a b : ℚ) : qsub a b = a - b := (Rat.sub_def' a b).symm

/-- `a * b` on `ℚ` in kernel-reducible form (see `qmul_eq`). -/
def qmul (a b : ℚ) : ℚ := mkRat (a.num * b.num) (a.den * b.den)

/-- `qmul` is multiplication. -/
theorem qmul_eq (a b : ℚ) : qmul a b = a * b := by
  rw [qmul, Rat.mul_def, Rat.normalize_eq_mkRat]

/-- `a / b` on `ℚ` in kernel-reducible form (see `qdiv_eq`). -/
def qdiv (a b : ℚ) : ℚ := Rat.divInt (a.num * b.den) (a.den * b.num)

/-- `qdiv` is division. -/
theorem qdiv_eq (a b : ℚ) : qdiv a b = a / b := (Rat.div_def' a b).symm

/-- A Python dict from field names to values, modelled as an association
list in insertion order (the program never inserts a duplicate key). -/
abbrev FieldMapping := List (String × Value)

/-- The derived-metrics dict has the same shape. -/
abbrev MetricMapping := List (String × Value)

/-- Python dict lookup `m[k]` / membership `k in m` (as an option).  The
program's dicts never hold duplicate keys, so first-match lookup is exact. -/
def getVal? : List (String × Value) → String → Option Value
  | [], _ => none
  | (a, v) :: rest, k => if a = k then some v else getVal? rest k

/-- Python `value * n` for an int literal `n`: float multiplication for
floats, string repetition for strings (e.g. `',' * 12`); neither raises. -/
def pyMulNat (v : Value) (n : Nat) : Value :=
  match v with
  | .num a => .num (qmul a n)
  | .str s => .str (String.join (List.replicate n s))

/-- Python `value / n` for an int literal `n`: raises `TypeError` on a
string operand, `ZeroDivisionError` on a zero divisor. -/
def pyDivNat (v : Value) (n : Nat) : Except String Value :=
  match v with
  | .num a => if (n : ℚ) = 0 then .error "ZeroDivisionError: division by zero"
              else .ok (.num (qdiv a n))
  | .str _ => .error "TypeError: unsupported operand type(s) for /: 'str' and 'int'"

/-- Python `a / b` on two dict values: raises `TypeError` unless both are
numbers, `ZeroDivisionError` on a zero denominator. -/
def pyDiv (a b : Value) : Except String Value :=
  match a, b with
  | .num x, .num y => if y = 0 then .error "ZeroDivisionError: float division by zero"
                      else .ok (.num (qdiv x y))
  | _, _ => .error "TypeError: unsupported operand type(s) for /"

/-- Python `a - b` on two dict values: raises `TypeError` unless both are
numbers. -/
def pySub (a b : Value) : Except String Value :=
  match a, b with
  | .num x, .num y => .ok (.num (qsub x y))
  | _, _ => .error "TypeError: unsupported operand type(s) for -"

/-- Python `v > 0`: raises `TypeError` on a string operand. -/
def pyGtZero (v : Value) : Except String Bool :=
  match v with
  | .num a => .ok (decide (0 < a))
  | .str _ => .error "TypeError: '>' not supported between instances of 'str' and 'int'"

/-- Equality of `Except` results is decidable (needed to evaluate the
embedded `perform_calculations` on concrete inputs). -/
instance {e a : Type} [DecidableEq e] [DecidableEq a] : DecidableEq (Except e a) := fun x y =>
  match x, y with
  | .ok u, .ok v => decidable_of_iff (u = v) (by simp)
  | .error u, .error v => decidable_of_iff (u = v) (by simp)
  | .ok _, .error _ => isFalse (by simp)
  | .error _, .ok _ => isFalse (by simp)

/-- Rule 1 of `perform_calculations` (lines 116–117):
`if 'net_amount' in salary_data: calculations['annual_salary'] = salary_data['net_amount'] * 12`. -/
def rule1 (salary_data : FieldMapping) (c : MetricMapping) : MetricMapping :=
  match getVal? salary_data "net_amount" with
  | some v => c ++ [("annual_salary", pyMulNat v 12)]
  | none => c

/-- Rule 2 (lines 120–121):
`if 'total_income' in itr_data: calculations['monthly_income_from_itr'] = itr_data['total_income'] / 12`. -/
def rule2 (itr_data : FieldMapping) (c : MetricMapping) : Except String MetricMapping :=
  match getVal? itr_data "total_income" with
  | some v => (pyDivNat v 12).map (fun r => c ++ [("monthly_income_from_itr", r)])
  | none => .ok c

/-- Rule 3 (lines 124–125): the guard
`'gross_salary' in salary_data and 'tax_deducted' in salary_data and salary_data['gross_salary'] > 0`
short-circuits, so the comparison (which raises on a string) only runs when
both keys are present; on success
`calculations['tax_percentage'] = (salary_data['tax_deducted'] / salary_data['gross_salary']) * 100`. -/
def rule3 (salary_data : FieldMapping) (c : MetricMapping) : Except String MetricMapping :=
  match getVal? salary_data "gross_salary", getVal? salary_data "tax_deducted" with
  | some g, some t =>
      (pyGtZero g).bind (fun pos =>
        if pos then
          (pyDiv t g).map (fun r => c ++ [("tax_percentage", pyMulNat r 100)])
        else .ok c)
  | _, _ => .ok c

/-- Rule 4 (lines 128–129):
`if 'tax_deducted' in salary_data: calculations['annual_tax'] = salary_data['tax_deducted'] * 12`. -/
def rule4 (salary_data : FieldMapping) (c : MetricMapping) : MetricMapping :=
  match getVal? salary_data "tax_deducted" with
  | some v => c ++ [("annual_tax", pyMulNat v 12)]
  | none => c

/-- Rule 5 (lines 132–133): the guard
`'total_income' in itr_data and 'annual_salary' in calculations` reads the
metric produced by rule 1, then
`calculations['income_difference'] = itr_data['total_income'] - calculations['annual_salary']`. -/
def rule5 (itr_data : FieldMapping) (c : MetricMapping) : Except String MetricMapping :=
  match getVal? itr_data "total_income", getVal? c "annual_salary" with
  | some ti, some a => (pySub ti a).map (fun r => c ++ [("income_difference", r)])
  | _, _ => .ok c

/-- `perform_calculations` (lines 111–135): starts from an empty dict and
runs the five conditional calculation rules in source order.  Any
`TypeError` / `ZeroDivisionError` raised by an individual rule propagates
(the Python function has no try/except). -/
def perform_calculations (salary_data itr_data : FieldMapping) : Except String MetricMapping :=
  (rule2 itr_data (rule1 salary_data [])).bind (fun c2 =>
    (rule3 salary_data c2).bind (fun c3 =>
      rule5 itr_data (rule4 salary_data c3)))

/-!
## The field extractor

The two extractors scan the text with Python `re.search(pattern, text,
re.IGNORECASE)`.  Every pattern in the program has the shape
"prefix-with-no-group followed by a single trailing capture group", so we
embed a small backtracking matcher for the prefix part (faithful to the
leftmost-position / leftmost-alternative / greedy-quantifier preference
order of Python's `re`) and a direct greedy matcher for each of the four
capture-group shapes that occur (nothing follows a group, so its preferred
match is its greedy one).  Character classes `\s` and `\d` are modelled by
their ASCII members, and `re.IGNORECASE` by ASCII case folding; the
patterns' literals are ASCII (plus `₹`, which is case-stable).
-/

/-- Python `\s` (ASCII part): the whitespace characters `str.strip()` and
`\s` agree on. -/
def isPySpace (c : Char) : Bool :=
  c = ' ' || c = '\t' || c = '\n' || c = '\x0d' || c = '\x0b' || c = '\x0c'

/-- Python `\d` (ASCII part). -/
def isDigitC (c : Char) : Bool :=
  '0'.toNat ≤ c.toNat && c.toNat ≤ '9'.toNat

/-- ASCII letter, i.e. the class `[A-Za-z]`.  Under `re.IGNORECASE` the
classes `[A-Za-z]` and `[A-Z]` both match exactly these characters. -/
def isAsciiLetter (c : Char) : Bool :=
  ('A'.toNat ≤ c.toNat && c.toNat ≤ 'Z'.toNat) || ('a'.toNat ≤ c.toNat && c.toNat ≤ 'z'.toNat)

/-- Case-insensitive character comparison (`re.IGNORECASE`, ASCII). -/
def eqCI (a b : Char) : Bool := a.toLower = b.toLower

/-- The regular-expression shapes occurring in the prefix (non-capturing)
part of the program's patterns: literal strings, `\s*`, optional
subpatterns (`:?`, `\.?`, and the optional currency marker), alternation
and concatenation. -/
inductive RE where
  | lit : List Char → RE
  | starC : (Char → Bool) → RE
  | opt : RE → RE
  | alt : RE → RE → RE
  | seq : RE → RE → RE

/-- Match a literal case-insensitively at the head of the input, returning
the rest. -/
def matchCI : List Char → List Char → Option (List Char)
  | [], cs => some cs
  | _ :: _, [] => none
  | l :: ls, c :: cs => if eqCI l c then matchCI ls cs else none

/-- All ways a prefix pattern can match at the head of the input, each
represented by the remaining suffix, listed in Python `re` backtracking
preference order: a literal matches one way; `\s*` is greedy (longest
first); `r?` prefers matching `r`; alternation prefers the left branch;
concatenation backtracks through the left factor's choices. -/
def runRE : RE → List Char → List (List Char)
  | .lit l, cs =>
      match matchCI l cs with
      | some r => [r]
      | none => []
  | .starC p, cs =>
      let n := (cs.takeWhile p).length
      (List.range (n + 1)).map (fun k => cs.drop (n - k))
  | .opt r, cs => runRE r cs ++ [cs]
  | .alt a b, cs => runRE a cs ++ runRE b cs
  | .seq a b, cs => (runRE a cs).flatMap (runRE b)

/-- `(?:s₁|s₂|…)`: alternation of literal synonyms, left-preferring. -/
def lits : List String → RE
  | [] => RE.lit []
  | [s] => RE.lit s.toList
  | s :: rest => RE.alt (RE.lit s.toList) (lits rest)

/-- `\s*:?\s*` — the label/value separator in every pattern. -/
def sepRE : RE :=
  RE.seq (RE.starC isPySpace) (RE.seq (RE.opt (RE.lit [':'])) (RE.starC isPySpace))

/-- `(?:Rs\.?|₹|INR)?` — the optional currency marker. -/
def markerRE : RE :=
  RE.opt (RE.alt (RE.seq (RE.lit ['R', 's']) (RE.opt (RE.lit ['.'])))
    (RE.alt (RE.lit ['₹']) (RE.lit ['I', 'N', 'R'])))

/-- Prefix of a Text-field pattern: `(?:syn|…)\s*:?\s*` before the group. -/
def textPrefix (syns : List String) : RE := RE.seq (lits syns) sepRE

/-- Prefix of a Currency-field pattern:
`(?:syn|…)\s*:?\s*(?:Rs\.?|₹|INR)?\s*` before the group. -/
def currencyPrefix (syns : List String) : RE :=
  RE.seq (lits syns) (RE.seq sepRE (RE.seq markerRE (RE.starC isPySpace)))

/-- The four capture-group shapes appearing in the program's patterns. -/
inductive Cap where
  | lettersSpaces  -- `([A-Za-z\s]+)`
  | alnum          -- `([A-Za-z0-9]+)` and, under IGNORECASE, `([A-Z0-9]+)`
  | currencyNum    -- `([\d,]+\.?\d*)`
  | year           -- `(20\d{2}-\d{2}|20\d{2})`

/-- Greedy match of a capture group at the head of the input (nothing
follows a group in any pattern, so the greedy match is the preferred one);
`none` when the group cannot match here at all. -/
def runCap : Cap → List Char → Option (List Char)
  | .lettersSpaces, cs =>
      let r := cs.takeWhile (fun c => isAsciiLetter c || isPySpace c)
      if r.isEmpty then none else some r
  | .alnum, cs =>
      let r := cs.takeWhile (fun c => isAsciiLetter c || isDigitC c)
      if r.isEmpty then none else some r
  | .currencyNum, cs =>
      let d1 := cs.takeWhile (fun c => isDigitC c || c = ',')
      if d1.isEmpty then none
      else
        match cs.drop d1.length with
        | '.' :: rest => some (d1 ++ '.' :: rest.takeWhile isDigitC)
        | _ => some d1
  | .year, cs =>
      match cs with
      | '2' :: '0' :: a :: b :: rest =>
          if isDigitC a && isDigitC b then
            match rest with
            | '-' :: c :: d :: _ =>
                if isDigitC c && isDigitC d then some ['2', '0', a, b, '-', c, d]
                else some ['2', '0', a, b]
            | _ => some ['2', '0', a, b]
          else none
      | _ => none

/-- `re.search`: try the pattern at each start position left to right; at a
given position try the prefix's matches in preference order and accept the
first at which the trailing capture group matches.  Returns the captured
group (`match.group(1)`). -/
def searchCap (pre : RE) (cap : Cap) : List Char → Option (List Char)
  | [] => (runRE pre []).findSome? (runCap cap)
  | c :: rest =>
      match (runRE pre (c :: rest)).findSome? (runCap cap) with
      | some r => some r
      | none => searchCap pre cap rest

/-- Python `str.strip()` (ASCII whitespace). -/
def pyStrip (cs : List Char) : List Char :=
  ((cs.dropWhile isPySpace).reverse.dropWhile isPySpace).reverse

/-- Decimal-digit run to a natural number. -/
def digitsToNat (ds : List Char) : ℕ :=
  ds.foldl (fun a c => 10 * a + (c.toNat - '0'.toNat)) 0

/-- Python `float(s)`, restricted to the strings reachable at its call
sites in the extractor: a captured `[\d,]+\.?\d*` group with the commas
removed, i.e. digit runs with at most one dot.  Succeeds exactly when the
string is `digits`, `digits.`, `digits.digits` or `.digits` with at least
one digit (`float('')` and `float('.')` raise `ValueError`). -/
def parseDecimal? (cs : List Char) : Option ℚ :=
  let ip := cs.takeWhile isDigitC
  match cs.drop ip.length with
  | [] => if ip.isEmpty then none else some (mkRat (digitsToNat ip) 1)
  | '.' :: fp =>
      if fp.all isDigitC && !(ip.isEmpty && fp.isEmpty) then
        some (mkRat (digitsToNat ip * 10 ^ fp.length + digitsToNat fp) (10 ^ fp.length))
      else none
  | _ => none

/-- Lines 67–75 / 98–106: store a matched field.  A field in the currency
list has its captured group's commas removed (`.replace(',', '')`) and
parsed with `float`; on `ValueError` the raw captured group
(`match.group(1)`, unmodified) is stored.  Any other field stores
`match.group(1).strip()`. -/
def coerceField (currency_fields : List String) (field : String) (cap : List Char) : Value :=
  if field ∈ currency_fields then
    match parseDecimal? (cap.filter (fun c => c != ',')) with
    | some q => Value.num q
    | none => Value.str (String.mk cap)
  else
    Value.str (String.mk (pyStrip cap))

/-- The extraction loop (lines 64–75 / 95–106): iterate the pattern dict in
insertion order; for each rule that matches, add one entry to the result
dict.  Since the rules' field names are distinct, the dict is the
concatenation of the per-rule singleton entries. -/
def extractFields : List (String × RE × Cap) → List String → String → FieldMapping
  | [], _, _ => []
  | p :: rest, currency_fields, text =>
      (match searchCap p.2.1 p.2.2 text.toList with
       | some cap => [(p.1, coerceField currency_fields p.1 cap)]
       | none => []) ++ extractFields rest currency_fields text

/-- The salary-slip pattern dict (lines 52–61), in insertion order, each
regex split into its non-capturing prefix and its capture group. -/
def salary_patterns : List (String × RE × Cap) :=
  [("employee_name", textPrefix ["Name", "Employee Name", "Employee"], Cap.lettersSpaces),
   ("employee_id", textPrefix ["Employee ID", "Emp ID", "Employee No", "ID"], Cap.alnum),
   ("basic_salary", currencyPrefix ["Basic Salary", "Basic Pay", "Basic"], Cap.currencyNum),
   ("hra", currencyPrefix ["HRA", "House Rent Allowance"], Cap.currencyNum),
   ("pf", currencyPrefix ["PF", "Provident Fund"], Cap.currencyNum),
   ("gross_salary", currencyPrefix ["Gross Salary", "Gross Pay", "Gross"], Cap.currencyNum),
   ("net_amount", currencyPrefix ["Net Amount", "Net Salary", "Net Pay", "Take Home", "Total", "Net"], Cap.currencyNum),
   ("tax_deducted", currencyPrefix ["Tax Deducted", "TDS", "Income Tax"], Cap.currencyNum)]

/-- Line 67: the salary fields converted to float. -/
def salary_currency_fields : List String :=
  ["basic_salary", "hra", "pf", "gross_salary", "net_amount", "tax_deducted"]

/-- `extract_salary_fields` (lines 47–77). -/
def extract_salary_fields (text : String) : FieldMapping :=
  extractFields salary_patterns salary_currency_fields text

/-- The ITR pattern dict (lines 85–92), in insertion order. -/
def itr_patterns : List (String × RE × Cap) :=
  [("pan", textPrefix ["PAN", "Permanent Account Number"], Cap.alnum),
   ("assessment_year", textPrefix ["Assessment Year", "AY"], Cap.year),
   ("total_income", currencyPrefix ["Total Income", "Gross Total Income"], Cap.currencyNum),
   ("taxable_income", currencyPrefix ["Taxable Income", "Net Taxable Income"], Cap.currencyNum),
   ("tax_payable", currencyPrefix ["Tax Payable", "Total Tax Payable"], Cap.currencyNum),
   ("tax_paid", currencyPrefix ["Tax Paid", "Total Tax Paid"], Cap.currencyNum)]

/-- Line 98: the ITR fields converted to float. -/
def itr_currency_fields : List String :=
  ["total_income", "taxable_income", "tax_payable", "tax_paid"]

/-- `extract_itr_fields` (lines 80–108). -/
def extract_itr_fields (text : String) : FieldMapping :=
  extractFields itr_patterns itr_currency_fields text

/-!
## The presentation formatter

Lines 274–284 of the "Salary Analysis" tab: the calculations dict becomes
rows of (label, value); the label column is rewritten by
`' '.join(word.capitalize() for word in x.split('_'))` and each numeric
value is replaced by the display string `f"₹ {value:,.2f}"` (strings pass
through unchanged).  `{:,.2f}` is modelled on exact-cent rationals, where
no float rounding is involved.
-/

/-- Python `str.capitalize()`: first character upper-cased, the rest
lower-cased (ASCII). -/
def pyCapitalize : List Char → List Char
  | [] => []
  | c :: rest => c.toUpper :: rest.map Char.toLower

/-- Python `s.split('_')`: split on every underscore, keeping empty
pieces (`'a__b'.split('_') == ['a', '', 'b']`). -/
def splitUnderscore : List Char → List (List Char)
  | [] => [[]]
  | '_' :: rest => [] :: splitUnderscore rest
  | c :: rest =>
      match splitUnderscore rest with
      | [] => [[c]]
      | w :: ws => (c :: w) :: ws

/-- Python `' '.join(words)`. -/
def joinSpace : List (List Char) → List Char
  | [] => []
  | [w] => w
  | w :: ws => w ++ ' ' :: joinSpace ws

/-- Line 277: `' '.join(word.capitalize() for word in x.split('_'))`. -/
def format_calc_label (x : String) : String :=
  String.mk (joinSpace ((splitUnderscore x.toList).map pyCapitalize))

/-- Insert a thousands separator every three digits from the right
(operates on the reversed digit list). -/
def commaGroupAux : List Char → List Char
  | a :: b :: c :: d :: rest => a :: b :: c :: ',' :: commaGroupAux (d :: rest)
  | l => l

/-- Thousands-separate a most-significant-first digit string. -/
def commaGroup (ds : List Char) : List Char :=
  (commaGroupAux ds.reverse).reverse

/-- Python `f"{v:,.2f}"`: round `|q|` to whole cents
(`n = ⌊|q| * 100 + 1/2⌋`, computed on numerator and denominator; the
program only formats values produced by exact arithmetic on parsed
two-decimal inputs, where no rounding subtlety arises),
thousands-separate the integer part, and print exactly two decimals. -/
def format2f (q : ℚ) : List Char :=
  let n : ℕ := (q.num.natAbs * 200 + q.den) / (2 * q.den)
  let sign : List Char := if q.num < 0 ∧ n ≠ 0 then ['-'] else []
  sign ++ commaGroup (Nat.toDigits 10 (n / 100)) ++
    '.' :: [Char.ofNat ('0'.toNat + n % 100 / 10), Char.ofNat ('0'.toNat + n % 10)]

/-- Lines 280–282: a numeric cell becomes the string `f"₹ {v:,.2f}"`; a
non-numeric cell (the `isinstance` test fails) is left unchanged. -/
def format_calc_value : Value → Value
  | .num q => .str (String.mk ('₹' :: ' ' :: format2f q))
  | .str s => .str s

/-- Lines 274–282 as a function: the displayed (label, value) rows of the
calculations table, in dict insertion order. -/
def format_calculations (m : MetricMapping) : List (String × Value) :=
  m.map (fun p => (format_calc_label p.1, format_calc_value p.2))

/-!
## Helper lemmas
-/

/-- A successful dict lookup exhibits a member of the association list. -/
theorem getVal?_mem {m : List (String × Value)} {k : String} {v : Value}
    (h : getVal? m k = some v) : (k, v) ∈ m := by
  induction m with
  | nil => simp [getVal?] at h
  | cons p rest ih =>
    rcases p with ⟨a, w⟩
    by_cases hak : a = k
    · subst hak
      simp [getVal?] at h
      simp [h]
    · simp [getVal?, hak] at h
      exact List.mem_cons_of_mem _ (ih h)

/-- A value is numeric exactly when it is `Value.num` of some rational. -/
theorem Value.isNum_iff {v : Value} : v.isNum = true ↔ ∃ q, v = Value.num q := by
  cases v <;> simp [Value.isNum]

/-- Characterization of `perform_calculations` on inputs all of whose
values are decimal numbers: the call returns normally, every produced
metric is a decimal number, and each of the five metrics is present
exactly under its rule's condition, with the rule's value. -/
theorem perform_calculations_numeric_spec
    (s i : FieldMapping)
    (hs : ∀ p ∈ s, p.2.isNum = true) (hi : ∀ p ∈ i, p.2.isNum = true) :
    ∃ m, perform_calculations s i = Except.ok m ∧
      (∀ p ∈ m, p.2.isNum = true) ∧
      ((getVal? m "annual_salary").isSome ↔ (getVal? s "net_amount").isSome) ∧
      (∀ na : ℚ, getVal? s "net_amount" = some (Value.num na) →
        getVal? m "annual_salary" = some (Value.num (na * 12))) ∧
      ((getVal? m "monthly_income_from_itr").isSome ↔ (getVal? i "total_income").isSome) ∧
      (∀ ti : ℚ, getVal? i "total_income" = some (Value.num ti) →
        getVal? m "monthly_income_from_itr" = some (Value.num (ti / 12))) ∧
      ((getVal? m "tax_percentage").isSome ↔
        ∃ g t : ℚ, getVal? s "gross_salary" = some (Value.num g) ∧
          getVal? s "tax_deducted" = some (Value.num t) ∧ 0 < g) ∧
      (∀ g t : ℚ, getVal? s "gross_salary" = some (Value.num g) →
        getVal? s "tax_deducted" = some (Value.num t) → 0 < g →
        getVal? m "tax_percentage" = some (Value.num (t / g * 100))) ∧
      ((getVal? m "annual_tax").isSome ↔ (getVal? s "tax_deducted").isSome) ∧
      (∀ t : ℚ, getVal? s "tax_deducted" = some (Value.num t) →
        getVal? m "annual_tax" = some (Value.num (t * 12))) ∧
      ((getVal? m "income_difference").isSome ↔
        ((getVal? i "total_income").isSome ∧ (getVal? s "net_amount").isSome)) ∧
      (∀ ti na : ℚ, getVal? i "total_income" = some (Value.num ti) →
        getVal? s "net_amount" = some (Value.num na) →
        getVal? m "income_difference" = some (Value.num (ti - na * 12))) := by
  have hS : ∀ {k : String} {v : Value}, getVal? s k = some v → ∃ q, v = Value.num q :=
    fun h => Value.isNum_iff.mp (hs _ (getVal?_mem h))
  have hI : ∀ {k : String} {v : Value}, getVal? i k = some v → ∃ q, v = Value.num q :=
    fun h => Value.isNum_iff.mp (hi _ (getVal?_mem h))
  rcases hna : getVal? s "net_amount" with _ | vna
  all_goals try (obtain ⟨na, rfl⟩ := hS hna)
  all_goals rcases hti : getVal? i "total_income" with _ | vti
  all_goals try (obtain ⟨ti, rfl⟩ := hI hti)
  all_goals rcases hg : getVal? s "gross_salary" with _ | vg
  all_goals try (obtain ⟨g, rfl⟩ := hS hg
                 rcases lt_or_le 0 g with hgpos | hgnpos)
  all_goals rcases ht : getVal? s "tax_deducted" with _ | vt
  all_goals try (obtain ⟨t, rfl⟩ := hS ht)
  all_goals try (have hgne := hgpos.ne')
  all_goals try (have hgneg := not_lt.mpr hgnpos)
  all_goals clear hS hI hs hi
  all_goals exact ⟨_, by
      (simp [perform_calculations, rule1, rule2, rule3, rule4, rule5, pyMulNat, pyDivNat,
        pyDiv, pySub, pyGtZero, getVal?, Except.bind, Except.map, hna, hti, hg, ht, *]; rfl), by
      simp [getVal?, Value.isNum, qmul_eq, qdiv_eq, qsub_eq, hna, hti, hg, ht, *]⟩

/-- Every key the extraction loop stores is the field name of one of its
rules. -/
theorem mem_keys_of_mem_extractFields {pats : List (String × RE × Cap)} {cf : List String}
    {text : String} {p : String × Value} (h : p ∈ extractFields pats cf text) :
    p.1 ∈ pats.map (fun r => r.1) := by
  induction pats with
  | nil => simp [extractFields] at h
  | cons r rest ih =>
    rw [extractFields] at h
    rcases List.mem_append.mp h with h1 | h2
    · cases hsr : searchCap r.2.1 r.2.2 text.toList with
      | none => rw [hsr] at h1; simp at h1
      | some c =>
        rw [hsr] at h1
        simp at h1
        simp [h1]
    · simp [ih h2]

/-- A field name not among the rules is absent from the result. -/
theorem getVal?_extractFields_eq_none {pats : List (String × RE × Cap)} {cf : List String}
    {text : String} {f : String} (hf : f ∉ pats.map (fun r => r.1)) :
    getVal? (extractFields pats cf text) f = none := by
  induction pats with
  | nil => simp [extractFields, getVal?]
  | cons r rest ih =>
    simp only [List.map_cons, List.mem_cons, not_or] at hf
    rw [extractFields]
    cases hsr : searchCap r.2.1 r.2.2 text.toList with
    | none => simpa [extractFields] using ih (by simpa using hf.2)
    | some c =>
      have : r.1 ≠ f := fun e => hf.1 e.symm
      simpa [getVal?, this] using ih (by simpa using hf.2)

/-- The result of a rule's field is exactly its own pattern's search
outcome, coerced: with distinct field names the rules do not interfere
with each other's keys. -/
theorem getVal?_extractFields {pats : List (String × RE × Cap)} {cf : List String}
    {text : String} {f : String} {pre : RE} {cap : Cap}
    (hmem : (f, pre, cap) ∈ pats) (hnd : (pats.map (fun r => r.1)).Nodup) :
    getVal? (extractFields pats cf text) f
      = (searchCap pre cap text.toList).map (fun c => coerceField cf f c) := by
  induction pats with
  | nil => simp at hmem
  | cons r rest ih =>
    rw [extractFields]
    rw [List.map_cons, List.nodup_cons] at hnd
    rcases List.mem_cons.mp hmem with heq | hrest
    · subst heq
      have hf : f ∉ rest.map (fun r => r.1) := hnd.1
      cases hsr : searchCap pre cap text.toList with
      | none => simpa [hsr] using getVal?_extractFields_eq_none hf
      | some c => simp [hsr, getVal?]
    · have hfr : f ∈ rest.map (fun r => r.1) :=
        List.mem_map.mpr ⟨(f, pre, cap), hrest, rfl⟩
      have hne : r.1 ≠ f := fun e => hnd.1 (e ▸ hfr)
      cases hsr : searchCap r.2.1 r.2.2 text.toList with
      | none => simpa using ih hrest hnd.2
      | some c => simpa [getVal?, hne] using ih hrest hnd.2

/-- `dropWhile` is the identity on a list none of whose elements satisfy
the predicate. -/
theorem dropWhile_eq_self {p : Char → Bool} {l : List Char} (h : ∀ x ∈ l, p x = false) :
    l.dropWhile p = l := by
  cases l with
  | nil => rfl
  | cons a t => simp [List.dropWhile_cons, h a (List.mem_cons_self a t)]

/-- `str.strip()` is the identity on a whitespace-free string. -/
theorem pyStrip_eq_self {l : List Char} (h : ∀ x ∈ l, isPySpace x = false) :
    pyStrip l = l := by
  unfold pyStrip
  rw [dropWhile_eq_self h, dropWhile_eq_self (fun x hx => h x (List.mem_reverse.mp hx)),
    List.reverse_reverse]

/-- The characters a `([\d,]+\.?\d*)` group captures are digits, commas
and dots. -/
theorem runCap_currencyNum_chars {cs c : List Char}
    (h : runCap Cap.currencyNum cs = some c) :
    ∀ x ∈ c, isDigitC x = true ∨ x = ',' ∨ x = '.' := by
  simp only [runCap] at h
  split at h
  · exact absurd h (by simp)
  · split at h
    · rename_i rest hdrop
      cases h
      intro x hx
      rcases List.mem_append.mp hx with h1 | h1
      · have := List.mem_takeWhile_imp h1
        simp at this
        rcases this with h2 | h2
        · exact Or.inl h2
        · exact Or.inr (Or.inl h2)
      · rcases List.mem_cons.mp h1 with h2 | h2
        · exact Or.inr (Or.inr h2)
        · exact Or.inl (List.mem_takeWhile_imp h2)
    · cases h
      intro x hx
      have := List.mem_takeWhile_imp hx
      simp at this
      rcases this with h2 | h2
      · exact Or.inl h2
      · exact Or.inr (Or.inl h2)

/-- Digits, commas and dots are not whitespace. -/
theorem isPySpace_false_of_digitCommaDot {x : Char}
    (h : isDigitC x = true ∨ x = ',' ∨ x = '.') : isPySpace x = false := by
  cases hsp : isPySpace x
  · rfl
  · exfalso
    simp only [isPySpace, Bool.or_eq_true, decide_eq_true_eq] at hsp
    rcases h with h | h | h
    · rcases hsp with ((((e | e) | e) | e) | e) | e <;> subst e <;> exact absurd h (by decide)
    · subst h
      rcases hsp with ((((e | e) | e) | e) | e) | e <;> exact absurd e (by decide)
    · subst h
      rcases hsp with ((((e | e) | e) | e) | e) | e <;> exact absurd e (by decide)

/-- A successful search's capture comes from the capture group matching
some suffix of the text. -/
theorem searchCap_some_runCap {pre : RE} {cap : Cap} {t : List Char} {c : List Char}
    (h : searchCap pre cap t = some c) : ∃ u, runCap cap u = some c := by
  induction t with
  | nil =>
    rw [searchCap] at h
    obtain ⟨u, hu, he⟩ := List.exists_of_findSome?_eq_some h
    exact ⟨u, he⟩
  | cons a t ih =>
    rw [searchCap] at h
    cases hfs : (runRE pre (a :: t)).findSome? (runCap cap) with
    | some r =>
      rw [hfs] at h
      cases h
      obtain ⟨u, hu, he⟩ := List.exists_of_findSome?_eq_some hfs
      exact ⟨u, he⟩
    | none => rw [hfs] at h; exact ih h

/-- A currency capture contains no whitespace, so stripping it is the
identity. -/
theorem searchCap_currencyNum_strip {pre : RE} {t c : List Char}
    (h : searchCap pre Cap.currencyNum t = some c) : pyStrip c = c := by
  obtain ⟨u, hu⟩ := searchCap_some_runCap h
  exact pyStrip_eq_self
    (fun x hx => isPySpace_false_of_digitCommaDot (runCap_currencyNum_chars hu x hx))

/-!
## The claims
-/

/-- C1 (counterexample): `perform_calculations` is not total on all field
mappings: on the mapping produced by the ITR extractor from
`"Total Income ,"` — whose `total_income` is the raw-string fallback `","`
— the division `',' / 12` raises a `TypeError`, contradicting the claim
that the operation never raises, in particular on raw-string fallback
values. -/
theorem perform_calculations_raises_on_string_fallback :
    extract_itr_fields "Total Income ," = [("total_income", Value.str ",")] ∧
    perform_calculations [] (extract_itr_fields "Total Income ,")
      = Except.error "TypeError: unsupported operand type(s) for /: 'str' and 'int'" := by
  exact ⟨by decide, by decide⟩

/-- C1 (amended): on input mappings all of whose values are decimal
numbers, `perform_calculations` is a pure total function — it returns
normally — and a rule whose required input field is absent contributes no
metric to the output mapping.  (On mappings carrying raw-string fallback
values it can instead raise `TypeError`, see the counterexample.) -/
theorem perform_calculations_total_on_numeric_inputs
    (s i : FieldMapping)
    (hs : ∀ p ∈ s, p.2.isNum = true) (hi : ∀ p ∈ i, p.2.isNum = true) :
    ∃ m, perform_calculations s i = Except.ok m ∧
      (getVal? s "net_amount" = none → getVal? m "annual_salary" = none) ∧
      (getVal? i "total_income" = none → getVal? m "monthly_income_from_itr" = none) ∧
      ((getVal? s "gross_salary" = none ∨ getVal? s "tax_deducted" = none) →
        getVal? m "tax_percentage" = none) ∧
      (getVal? s "tax_deducted" = none → getVal? m "annual_tax" = none) ∧
      ((getVal? i "total_income" = none ∨ getVal? s "net_amount" = none) →
        getVal? m "income_difference" = none) := by
  obtain ⟨m, hok, _, hA, _, hM, _, hT, _, hX, _, hD, _⟩ :=
    perform_calculations_numeric_spec s i hs hi
  refine ⟨m, hok, ?_, ?_, ?_, ?_, ?_⟩
  · intro h
    rcases hr : getVal? m "annual_salary" with _ | v
    · rfl
    · exact absurd (hA.mp (by simp [hr])) (by simp [h])
  · intro h
    rcases hr : getVal? m "monthly_income_from_itr" with _ | v
    · rfl
    · exact absurd (hM.mp (by simp [hr])) (by simp [h])
  · intro h
    rcases hr : getVal? m "tax_percentage" with _ | v
    · rfl
    · exfalso
      obtain ⟨g, t, hg, ht, _⟩ := hT.mp (by simp [hr])
      rcases h with h | h
      · rw [h] at hg; exact Option.noConfusion hg
      · rw [h] at ht; exact Option.noConfusion ht
  · intro h
    rcases hr : getVal? m "annual_tax" with _ | v
    · rfl
    · exact absurd (hX.mp (by simp [hr])) (by simp [h])
  · intro h
    rcases hr : getVal? m "income_difference" with _ | v
    · rfl
    · exfalso
      obtain ⟨h1, h2⟩ := hD.mp (by simp [hr])
      rcases h with h | h
      · rw [h] at h1; simp at h1
      · rw [h] at h2; simp at h2

/-- Witness for C1 (amended) at a concrete numeric input. -/
theorem perform_calculations_total_on_numeric_inputs_witness :
    (∀ p ∈ ([("net_amount", Value.num 5)] : FieldMapping), p.2.isNum = true) ∧
    (∀ p ∈ ([] : FieldMapping), p.2.isNum = true) ∧
    (∃ m, perform_calculations [("net_amount", Value.num 5)] [] = Except.ok m ∧
      (getVal? [("net_amount", Value.num 5)] "net_amount" = none →
        getVal? m "annual_salary" = none) ∧
      (getVal? ([] : FieldMapping) "total_income" = none →
        getVal? m "monthly_income_from_itr" = none) ∧
      ((getVal? [("net_amount", Value.num 5)] "gross_salary" = none ∨
        getVal? [("net_amount", Value.num 5)] "tax_deducted" = none) →
        getVal? m "tax_percentage" = none) ∧
      (getVal? [("net_amount", Value.num 5)] "tax_deducted" = none →
        getVal? m "annual_tax" = none) ∧
      ((getVal? ([] : FieldMapping) "total_income" = none ∨
        getVal? [("net_amount", Value.num 5)] "net_amount" = none) →
        getVal? m "income_difference" = none)) :=
  ⟨by decide, by decide,
    perform_calculations_total_on_numeric_inputs _ _ (by decide) (by decide)⟩

/-- C2 (counterexample): a MetricMapping entry need not be a decimal
number: with the raw-string fallback `","` as `net_amount`, Python's
`',' * 12` is string repetition, so `annual_salary` is the string
`",,,,,,,,,,,,"`. -/
theorem perform_calculations_string_metric_entry :
    perform_calculations [("net_amount", Value.str ",")] []
      = Except.ok [("annual_salary", Value.str ",,,,,,,,,,,,")] ∧
    (Value.str ",,,,,,,,,,,,").isNum = false := by
  exact ⟨by decide, by decide⟩

/-- C2 (amended): on input mappings all of whose values are decimal
numbers, every entry of the returned MetricMapping is a decimal number,
and an entry is present only if its required input fields exist. -/
theorem perform_calculations_numeric_entries_on_numeric_inputs
    (s i : FieldMapping)
    (hs : ∀ p ∈ s, p.2.isNum = true) (hi : ∀ p ∈ i, p.2.isNum = true) :
    ∃ m, perform_calculations s i = Except.ok m ∧
      (∀ p ∈ m, p.2.isNum = true) ∧
      ((getVal? m "annual_salary").isSome = true →
        (getVal? s "net_amount").isSome = true) ∧
      ((getVal? m "monthly_income_from_itr").isSome = true →
        (getVal? i "total_income").isSome = true) ∧
      ((getVal? m "tax_percentage").isSome = true →
        ((getVal? s "gross_salary").isSome = true ∧
          (getVal? s "tax_deducted").isSome = true)) ∧
      ((getVal? m "annual_tax").isSome = true →
        (getVal? s "tax_deducted").isSome = true) ∧
      ((getVal? m "income_difference").isSome = true →
        ((getVal? i "total_income").isSome = true ∧
          (getVal? s "net_amount").isSome = true)) := by
  obtain ⟨m, hok, hnum, hA, _, hM, _, hT, _, hX, _, hD, _⟩ :=
    perform_calculations_numeric_spec s i hs hi
  refine ⟨m, hok, hnum, fun h => hA.mp h, fun h => hM.mp h, ?_, fun h => hX.mp h,
    fun h => hD.mp h⟩
  intro h
  obtain ⟨g, t, hg, ht, _⟩ := hT.mp h
  exact ⟨by simp [hg], by simp [ht]⟩

/-- Witness for C2 (amended) at a concrete numeric input. -/
theorem perform_calculations_numeric_entries_witness :
    (∀ p ∈ ([("tax_deducted", Value.num 7)] : FieldMapping), p.2.isNum = true) ∧
    (∀ p ∈ ([] : FieldMapping), p.2.isNum = true) ∧
    (∃ m, perform_calculations [("tax_deducted", Value.num 7)] [] = Except.ok m ∧
      (∀ p ∈ m, p.2.isNum = true) ∧
      ((getVal? m "annual_salary").isSome = true →
        (getVal? [("tax_deducted", Value.num 7)] "net_amount").isSome = true) ∧
      ((getVal? m "monthly_income_from_itr").isSome = true →
        (getVal? ([] : FieldMapping) "total_income").isSome = true) ∧
      ((getVal? m "tax_percentage").isSome = true →
        ((getVal? [("tax_deducted", Value.num 7)] "gross_salary").isSome = true ∧
          (getVal? [("tax_deducted", Value.num 7)] "tax_deducted").isSome = true)) ∧
      ((getVal? m "annual_tax").isSome = true →
        (getVal? [("tax_deducted", Value.num 7)] "tax_deducted").isSome = true) ∧
      ((getVal? m "income_difference").isSome = true →
        ((getVal? ([] : FieldMapping) "total_income").isSome = true ∧
          (getVal? [("tax_deducted", Value.num 7)] "net_amount").isSome = true))) :=
  ⟨by decide, by decide,
    perform_calculations_numeric_entries_on_numeric_inputs _ _ (by decide) (by decide)⟩

/-- C3: guarded division.  On numeric mappings containing both
`gross_salary` and `tax_deducted`: if `gross_salary > 0` the result
contains `tax_percentage = (tax_deducted / gross_salary) * 100`; if
`gross_salary == 0` the `tax_percentage` key is absent (the model has no
infinities or NaN, and the call returns normally, so no error occurs). -/
theorem tax_percentage_guarded
    (s i : FieldMapping)
    (hs : ∀ p ∈ s, p.2.isNum = true) (hi : ∀ p ∈ i, p.2.isNum = true)
    (g t : ℚ)
    (hg : getVal? s "gross_salary" = some (Value.num g))
    (ht : getVal? s "tax_deducted" = some (Value.num t)) :
    ∃ m, perform_calculations s i = Except.ok m ∧
      (0 < g → getVal? m "tax_percentage" = some (Value.num (t / g * 100))) ∧
      (g = 0 → getVal? m "tax_percentage" = none) := by
  obtain ⟨m, hok, _, _, _, _, _, hT, hTv, _, _, _, _⟩ :=
    perform_calculations_numeric_spec s i hs hi
  refine ⟨m, hok, fun hpos => hTv g t hg ht hpos, ?_⟩
  intro h0
  rcases hr : getVal? m "tax_percentage" with _ | v
  · rfl
  · exfalso
    obtain ⟨g', t', hg', ht', hpos⟩ := hT.mp (by simp [hr])
    rw [hg] at hg'
    simp at hg'
    rw [← hg', h0] at hpos
    exact lt_irrefl 0 hpos

/-- Witness for C3 at the spec's concrete input
`salary = {gross_salary: 0, tax_deducted: 500}`. -/
theorem tax_percentage_guarded_witness :
    (∀ p ∈ ([("gross_salary", Value.num 0), ("tax_deducted", Value.num 500)] : FieldMapping),
      p.2.isNum = true) ∧
    (∀ p ∈ ([] : FieldMapping), p.2.isNum = true) ∧
    getVal? [("gross_salary", Value.num 0), ("tax_deducted", Value.num 500)] "gross_salary"
      = some (Value.num 0) ∧
    getVal? [("gross_salary", Value.num 0), ("tax_deducted", Value.num 500)] "tax_deducted"
      = some (Value.num 500) ∧
    (∃ m, perform_calculations
        [("gross_salary", Value.num 0), ("tax_deducted", Value.num 500)] [] = Except.ok m ∧
      ((0 : ℚ) < 0 → getVal? m "tax_percentage" = some (Value.num (500 / 0 * 100))) ∧
      ((0 : ℚ) = 0 → getVal? m "tax_percentage" = none)) :=
  ⟨by decide, by decide, by decide, by decide,
    tax_percentage_guarded _ _ (by decide) (by decide) 0 500 (by decide) (by decide)⟩

/-- C4: the intra-batch dependency of rule 5 on rule 1.  On numeric
mappings, `annual_salary` is present exactly when `net_amount` is;
`income_difference` is present exactly when `total_income` is present and
rule 1 produced `annual_salary` in the same call; and the values are
`annual_salary = net_amount * 12` and
`income_difference = total_income - annual_salary`. -/
theorem income_difference_dependency
    (s i : FieldMapping)
    (hs : ∀ p ∈ s, p.2.isNum = true) (hi : ∀ p ∈ i, p.2.isNum = true) :
    ∃ m, perform_calculations s i = Except.ok m ∧
      ((getVal? m "annual_salary").isSome = true ↔
        (getVal? s "net_amount").isSome = true) ∧
      ((getVal? m "income_difference").isSome = true ↔
        ((getVal? i "total_income").isSome = true ∧
          (getVal? m "annual_salary").isSome = true)) ∧
      (∀ ti na : ℚ, getVal? i "total_income" = some (Value.num ti) →
        getVal? s "net_amount" = some (Value.num na) →
        getVal? m "annual_salary" = some (Value.num (na * 12)) ∧
        getVal? m "income_difference" = some (Value.num (ti - na * 12))) := by
  obtain ⟨m, hok, _, hA, hAv, _, _, _, _, _, _, hD, hDv⟩ :=
    perform_calculations_numeric_spec s i hs hi
  refine ⟨m, hok, hA, ?_, fun ti na hti hna => ⟨hAv na hna, hDv ti na hti hna⟩⟩
  rw [hA]
  exact hD

/-- Witness for C4 at the spec's concrete input
`salary = {net_amount: 50000}`, `tax_doc = {total_income: 700000}`; as a
decided side fact, the full result carries `annual_salary = 600000` and
`income_difference = 100000`. -/
theorem income_difference_dependency_witness :
    (∀ p ∈ ([("net_amount", Value.num 50000)] : FieldMapping), p.2.isNum = true) ∧
    (∀ p ∈ ([("total_income", Value.num 700000)] : FieldMapping), p.2.isNum = true) ∧
    (perform_calculations [("net_amount", Value.num 50000)]
        [("total_income", Value.num 700000)]
      = Except.ok [("annual_salary", Value.num 600000),
          ("monthly_income_from_itr", Value.num (mkRat 175000 3)),
          ("income_difference", Value.num 100000)]) ∧
    (∃ m, perform_calculations [("net_amount", Value.num 50000)]
        [("total_income", Value.num 700000)] = Except.ok m ∧
      ((getVal? m "annual_salary").isSome = true ↔
        (getVal? [("net_amount", Value.num 50000)] "net_amount").isSome = true) ∧
      ((getVal? m "income_difference").isSome = true ↔
        ((getVal? [("total_income", Value.num 700000)] "total_income").isSome = true ∧
          (getVal? m "annual_salary").isSome = true)) ∧
      (∀ ti na : ℚ,
        getVal? [("total_income", Value.num 700000)] "total_income"
          = some (Value.num ti) →
        getVal? [("net_amount", Value.num 50000)] "net_amount" = some (Value.num na) →
        getVal? m "annual_salary" = some (Value.num (na * 12)) ∧
        getVal? m "income_difference" = some (Value.num (ti - na * 12)))) :=
  ⟨by decide, by decide, by decide,
    income_difference_dependency _ _ (by decide) (by decide)⟩

/-- C5: currency numeric round-trip.  Extracting from the exact text
`"Basic Salary: Rs. 45,000.50"` stores `basic_salary` as the decimal
number `45000.50` (thousands separator stripped, currency marker skipped,
parsed as a number). -/
theorem basic_salary_numeric_round_trip :
    getVal? (extract_salary_fields "Basic Salary: Rs. 45,000.50") "basic_salary"
      = some (Value.num 45000.5) := by
  have h : getVal? (extract_salary_fields "Basic Salary: Rs. 45,000.50") "basic_salary"
      = some (Value.num (mkRat 4500050 100)) := by decide
  rw [h]
  norm_num [Rat.mkRat_eq_divInt, Rat.divInt_eq_div]

/-- C6: value-coercion fallback.  For every input text: when a Currency
rule of either registry matches with captured group `c` and the comma-
stripped capture parses to no number, the extractor stores the raw
captured string unchanged under the field's key (which is already its own
trim: a currency capture holds no whitespace).  The extractor is a total
function of the text — in particular it raises nothing. -/
theorem currency_fallback_stores_raw_string
    (pats : List (String × RE × Cap)) (cf : List String)
    (hreg : (pats, cf) = (salary_patterns, salary_currency_fields) ∨
            (pats, cf) = (itr_patterns, itr_currency_fields))
    (f : String) (pre : RE) (cap : Cap)
    (hmem : (f, pre, cap) ∈ pats) (hcf : f ∈ cf)
    (text : String) (c : List Char)
    (hmatch : searchCap pre cap text.toList = some c)
    (hfail : parseDecimal? (c.filter (fun ch => ch != ',')) = none) :
    getVal? (extractFields pats cf text) f = some (Value.str (String.mk c)) ∧
      pyStrip c = c := by
  have hnd : (pats.map (fun r => r.1)).Nodup := by
    rcases hreg with h | h <;> (injection h with h1 h2; subst h1; decide)
  have hcap : cap = Cap.currencyNum := by
    rcases hreg with h | h
    · injection h with h1 h2
      subst h1; subst h2
      simp only [salary_currency_fields, List.mem_cons, List.not_mem_nil, or_false] at hcf
      rcases hcf with rfl | rfl | rfl | rfl | rfl | rfl <;> simp_all [salary_patterns]
    · injection h with h1 h2
      subst h1; subst h2
      simp only [itr_currency_fields, List.mem_cons, List.not_mem_nil, or_false] at hcf
      rcases hcf with rfl | rfl | rfl | rfl <;> simp_all [itr_patterns]
  subst hcap
  have key := @getVal?_extractFields pats cf text f pre Cap.currencyNum hmem hnd
  rw [hmatch] at key
  refine ⟨?_, searchCap_currencyNum_strip hmatch⟩
  rw [key]
  simp [coerceField, hcf, hfail]

/-- Witness for C6: on the text `"Basic: ,"` the `basic_salary` rule
captures `","`, whose comma-stripped form `""` parses to no number, so the
raw string `","` is stored. -/
theorem currency_fallback_stores_raw_string_witness :
    ((salary_patterns, salary_currency_fields)
        = (salary_patterns, salary_currency_fields) ∨
      (salary_patterns, salary_currency_fields)
        = (itr_patterns, itr_currency_fields)) ∧
    ("basic_salary", currencyPrefix ["Basic Salary", "Basic Pay", "Basic"],
      Cap.currencyNum) ∈ salary_patterns ∧
    "basic_salary" ∈ salary_currency_fields ∧
    searchCap (currencyPrefix ["Basic Salary", "Basic Pay", "Basic"]) Cap.currencyNum
      "Basic: ,".toList = some [','] ∧
    parseDecimal? ([','].filter (fun ch => ch != ',')) = none ∧
    (getVal? (extractFields salary_patterns salary_currency_fields "Basic: ,")
        "basic_salary" = some (Value.str (String.mk [','])) ∧
      pyStrip [','] = [',']) :=
  ⟨Or.inl rfl,
    List.mem_cons_of_mem _ (List.mem_cons_of_mem _ (List.mem_cons_self _ _)),
    by decide, by decide, by decide,
    currency_fallback_stores_raw_string _ _ (Or.inl rfl) _ _ _
      (List.mem_cons_of_mem _ (List.mem_cons_of_mem _ (List.mem_cons_self _ _)))
      (by decide) _ _ (by decide) (by decide)⟩

/-- C7: case-insensitive matching with whitespace trimming for Text
fields: both `"EMPLOYEE NAME: Jane Doe"` and `"employee name : Jane Doe"`
extract `employee_name = "Jane Doe"`. -/
theorem employee_name_case_insensitive :
    getVal? (extract_salary_fields "EMPLOYEE NAME: Jane Doe") "employee_name"
      = some (Value.str "Jane Doe") ∧
    getVal? (extract_salary_fields "employee name : Jane Doe") "employee_name"
      = some (Value.str "Jane Doe") := by
  exact ⟨by decide, by decide⟩

/-- C8: presentation formatting: the metrics mapping `{annual_tax: 6000}`
is displayed as the pair with label `"Annual Tax"` and value
`"₹ 6,000.00"`. -/
theorem annual_tax_formatting :
    format_calculations [("annual_tax", Value.num 6000)]
      = [("Annual Tax", Value.str "₹ 6,000.00")] := by
  decide

/-- C9: key-set invariant: for every input text the salary extractor's
keys come from its fixed rule set and the ITR extractor's keys from its
fixed rule set. -/
theorem extracted_keys_in_rule_sets (text : String) :
    (∀ p ∈ extract_salary_fields text,
      p.1 ∈ ["employee_name", "employee_id", "basic_salary", "hra", "pf",
        "gross_salary", "net_amount", "tax_deducted"]) ∧
    (∀ p ∈ extract_itr_fields text,
      p.1 ∈ ["pan", "assessment_year", "total_income", "taxable_income",
        "tax_payable", "tax_paid"]) := by
  constructor
  · intro p hp
    have := mem_keys_of_mem_extractFields hp
    simpa [salary_patterns] using this
  · intro p hp
    have := mem_keys_of_mem_extractFields hp
    simpa [itr_patterns] using this

/-- C10: the numeric-parse fallback branch is reachable from the public
interface: on the text `"HRA ,,"` the Currency field `hra` matches with
capture `",,"`, which parses to no number after comma removal, so the
mapping stores the raw string `",,"` rather than a decimal number. -/
theorem currency_fallback_reachable :
    ∃ text : String, "hra" ∈ salary_currency_fields ∧
      extract_salary_fields text = [("hra", Value.str ",,")] :=
  ⟨"HRA ,,", by decide, by decide⟩
